import Mathlib

/-
Verification of the event-delivery and lifecycle-coordination engine of the
aws-lambda-extensions client library.

The development shallowly embeds the relevant Go code:
* `ExtApi`   — extapi/extension.go (Run / loop / shutdown) and the wire types
               of extapi (EventType, ShutdownReason, NextEventResponse,
               subscription requests and their JSON encoding).
* `Internal` — internal/server.go (the generic push-stream receiver) and the
               streaming JSON array decoder internal/decode.go.

Go `error` values are modelled by `Option GoErr` (with `none` for `nil`),
JSON documents by the inductive `Json`, contexts by their deadline, and the
receiver's concurrent behaviour by an explicit small-step transition system.
-/

namespace LambdaExt

/-- Model of a Go `error` value: either a leaf error with a message, or an
error produced by `fmt.Errorf("<msg>: %w", inner)`. A Go `nil` error is
`none : Option GoErr` at use sites. -/
inductive GoErr where
  | base (msg : String) : GoErr
  | wrap (msg : String) (inner : GoErr) : GoErr
deriving DecidableEq, Repr

/-- Model of a JSON document, as produced and consumed by Go `encoding/json`.
Numbers are restricted to integers, which covers every numeric field of the
embedded types (`uint32`, `int64`). -/
inductive Json where
  | null : Json
  | str (s : String) : Json
  | num (n : Int) : Json
  | bool (b : Bool) : Json
  | arr (elems : List Json) : Json
  | obj (fields : List (String × Json)) : Json

/-- Key lookup in a JSON object, first binding wins (Go object keys are
unique in the documents we model). -/
def Json.lookup (fields : List (String × Json)) (key : String) : Option Json :=
  match fields with
  | [] => none
  | (k, v) :: rest => if k = key then some v else Json.lookup rest key

/-- Go `encoding/json` unmarshalling of an object field into a `string`-typed
struct field: an absent key or a JSON `null` leaves the zero value `""`;
a JSON string is taken verbatim; any other JSON value is a decode error. -/
def Json.getStr (fields : List (String × Json)) (key : String) : Except GoErr String :=
  match Json.lookup fields key with
  | none => .ok ""
  | some .null => .ok ""
  | some (.str s) => .ok s
  | some _ => .error (.base ("cannot unmarshal into string field " ++ key))

/-- Go `encoding/json` unmarshalling of an object field into an integer-typed
struct field (`int64`, `uint32`): absent or `null` leaves the zero value. -/
def Json.getInt (fields : List (String × Json)) (key : String) : Except GoErr Int :=
  match Json.lookup fields key with
  | none => .ok 0
  | some .null => .ok 0
  | some (.num n) => .ok n
  | some _ => .error (.base ("cannot unmarshal into integer field " ++ key))

/-- Go `encoding/json` unmarshalling of a JSON array into a slice of
string-kinded values (`[]LogSubscriptionType`, `[]TelemetrySubscriptionType`,
`[]EventType`). -/
def Json.decodeStrElems : List Json → Except GoErr (List String)
  | [] => .ok []
  | Json.str s :: rest => (Json.decodeStrElems rest).map (s :: ·)
  | _ :: _ => .error (.base "cannot unmarshal array element into string")

/-- Go `encoding/json` unmarshalling of an object field into a slice of
string-kinded values: absent or `null` leaves the zero value (a nil slice,
modelled as the empty list). -/
def Json.getStrList (fields : List (String × Json)) (key : String) :
    Except GoErr (List String) :=
  match Json.lookup fields key with
  | none => .ok []
  | some .null => .ok []
  | some (.arr elems) => Json.decodeStrElems elems
  | some _ => .error (.base ("cannot unmarshal into slice field " ++ key))

namespace ExtApi

/-- `extapi.EventType`, the type of events received from `/event/next`. -/
abbrev EventType := String

/-- `Invoke` is the lambda invoke event. -/
def Invoke : EventType := "INVOKE"

/-- `Shutdown` is a shutdown event for the environment. -/
def Shutdown : EventType := "SHUTDOWN"

/-- `extapi.ShutdownReason`, the reason for a shutdown event. -/
abbrev ShutdownReason := String

/-- `Spindown` is a normal end to a function. -/
def Spindown : ShutdownReason := "spindown"

/-- `Timeout` means the handler ran out of time. The string value is taken
verbatim from the source, which spells it without the middle `e`. -/
def Timeout : ShutdownReason := "timout"

/-- `Failure` is any other shutdown type, such as out-of-memory. -/
def Failure : ShutdownReason := "failure"

/-- `ExtensionError` is used when one of Client or Extension methods return
error. It is not returned by lambda. -/
def ExtensionError : ShutdownReason := "extension_error"

/-- `extapi.Tracing`, part of the response for `/event/next`. -/
structure Tracing where
  type : String
  value : String
deriving DecidableEq, Repr

/-- `extapi.NextEventResponse`, the response for `/event/next`. -/
structure NextEventResponse where
  eventType : EventType
  deadlineMs : Int
  requestID : String
  invokedFunctionArn : String
  tracing : Tracing
  shutdownReason : ShutdownReason
deriving DecidableEq, Repr

/-- JSON decoding of `extapi.Tracing` per its struct tags. -/
def Tracing.fromJson : Json → Except GoErr Tracing
  | Json.obj fields => do
      let t ← Json.getStr fields "type"
      let v ← Json.getStr fields "value"
      .ok ⟨t, v⟩
  | Json.null => .ok ⟨"", ""⟩
  | _ => .error (.base "cannot unmarshal into Tracing")

/-- JSON decoding of `extapi.NextEventResponse` per its struct tags
(`eventType`, `deadlineMs`, `requestId`, `invokedFunctionArn`, `tracing`,
`shutdownReason`). -/
def NextEventResponse.fromJson : Json → Except GoErr NextEventResponse
  | Json.obj fields => do
      let et ← Json.getStr fields "eventType"
      let dl ← Json.getInt fields "deadlineMs"
      let rid ← Json.getStr fields "requestId"
      let arn ← Json.getStr fields "invokedFunctionArn"
      let tr ← (match Json.lookup fields "tracing" with
                | none => .ok ⟨"", ""⟩
                | some j => Tracing.fromJson j)
      let sr ← Json.getStr fields "shutdownReason"
      .ok ⟨et, dl, rid, arn, tr, sr⟩
  | _ => .error (.base "cannot unmarshal into NextEventResponse")

/-- `extapi.TelemetryBufferingCfg`: the buffering thresholds of a telemetry
subscription. The Go fields are `uint32`; they are modelled as integers, the
numeric range playing no role in the encoding. -/
structure TelemetryBufferingCfg where
  maxItems : Int
  maxBytes : Int
  timeoutMS : Int
deriving DecidableEq, Repr

/-- JSON encoding of `TelemetryBufferingCfg` per its struct tags. -/
def TelemetryBufferingCfg.toJson (b : TelemetryBufferingCfg) : Json :=
  Json.obj [("maxItems", Json.num b.maxItems), ("maxBytes", Json.num b.maxBytes),
    ("timeoutMs", Json.num b.timeoutMS)]

/-- JSON decoding of `TelemetryBufferingCfg` per its struct tags. -/
def TelemetryBufferingCfg.fromJson : Json → Except GoErr TelemetryBufferingCfg
  | Json.obj fields => do
      let mi ← Json.getInt fields "maxItems"
      let mb ← Json.getInt fields "maxBytes"
      let tm ← Json.getInt fields "timeoutMs"
      .ok ⟨mi, mb, tm⟩
  | _ => .error (.base "cannot unmarshal into TelemetryBufferingCfg")

/-- `extapi.TelemetryDestination`: the telemetry event destination. -/
structure TelemetryDestination where
  protocol : String
  uri : String
deriving DecidableEq, Repr

/-- JSON encoding of `TelemetryDestination` per its struct tags
(`protocol`, `URI`). -/
def TelemetryDestination.toJson (d : TelemetryDestination) : Json :=
  Json.obj [("protocol", Json.str d.protocol), ("URI", Json.str d.uri)]

/-- JSON decoding of `TelemetryDestination` per its struct tags. -/
def TelemetryDestination.fromJson : Json → Except GoErr TelemetryDestination
  | Json.obj fields => do
      let p ← Json.getStr fields "protocol"
      let u ← Json.getStr fields "URI"
      .ok ⟨p, u⟩
  | _ => .error (.base "cannot unmarshal into TelemetryDestination")

/-- `extapi.TelemetrySubscribeRequest`: the request body sent to the
Telemetry API on subscribe. Go pointer fields are modelled as `Option`,
string-kinded fields (`TelemetrySchemaVersion`, `TelemetrySubscriptionType`)
as strings. -/
structure TelemetrySubscribeRequest where
  schemaVersion : String
  types : List String
  bufferingCfg : Option TelemetryBufferingCfg
  destination : Option TelemetryDestination
deriving DecidableEq, Repr

/-- JSON encoding of `TelemetrySubscribeRequest` per its struct tags:
`schemaVersion,omitempty`, `types`, `buffering,omitempty` (a pointer, omitted
when nil), `destination` (a pointer, `null` when nil). -/
def TelemetrySubscribeRequest.toJson (r : TelemetrySubscribeRequest) : Json :=
  Json.obj
    ((if r.schemaVersion = "" then [] else [("schemaVersion", Json.str r.schemaVersion)]) ++
      [("types", Json.arr (r.types.map Json.str))] ++
      (match r.bufferingCfg with
       | none => []
       | some b => [("buffering", TelemetryBufferingCfg.toJson b)]) ++
      [("destination", match r.destination with
        | none => Json.null
        | some d => TelemetryDestination.toJson d)])

/-- JSON decoding of `TelemetrySubscribeRequest` per its struct tags. -/
def TelemetrySubscribeRequest.fromJson : Json → Except GoErr TelemetrySubscribeRequest
  | Json.obj fields => do
      let sv ← Json.getStr fields "schemaVersion"
      let tys ← Json.getStrList fields "types"
      let buf ← (match Json.lookup fields "buffering" with
                 | none => .ok none
                 | some Json.null => .ok none
                 | some j => (TelemetryBufferingCfg.fromJson j).map some)
      let dst ← (match Json.lookup fields "destination" with
                 | none => .ok none
                 | some Json.null => .ok none
                 | some j => (TelemetryDestination.fromJson j).map some)
      .ok ⟨sv, tys, buf, dst⟩
  | _ => .error (.base "cannot unmarshal into TelemetrySubscribeRequest")

/-- `extapi.LogsBufferingCfg`: the buffering thresholds of a logs
subscription (`maxItems`, `maxBytes`, `timeoutMs`, all `uint32`). -/
structure LogsBufferingCfg where
  maxItems : Int
  maxBytes : Int
  timeoutMS : Int
deriving DecidableEq, Repr

/-- JSON encoding of `LogsBufferingCfg` per its struct tags. -/
def LogsBufferingCfg.toJson (b : LogsBufferingCfg) : Json :=
  Json.obj [("maxItems", Json.num b.maxItems), ("maxBytes", Json.num b.maxBytes),
    ("timeoutMs", Json.num b.timeoutMS)]

/-- JSON decoding of `LogsBufferingCfg` per its struct tags. -/
def LogsBufferingCfg.fromJson : Json → Except GoErr LogsBufferingCfg
  | Json.obj fields => do
      let mi ← Json.getInt fields "maxItems"
      let mb ← Json.getInt fields "maxBytes"
      let tm ← Json.getInt fields "timeoutMs"
      .ok ⟨mi, mb, tm⟩
  | _ => .error (.base "cannot unmarshal into LogsBufferingCfg")

/-- `extapi.LogsDestination`: the configuration for listeners who would like
to receive logs with HTTP. -/
structure LogsDestination where
  protocol : String
  uri : String
  httpMethod : String
  encoding : String
deriving DecidableEq, Repr

/-- JSON encoding of `LogsDestination` per its struct tags (`protocol`,
`URI`, `method,omitempty`, `encoding,omitempty`). -/
def LogsDestination.toJson (d : LogsDestination) : Json :=
  Json.obj
    ([("protocol", Json.str d.protocol), ("URI", Json.str d.uri)] ++
      (if d.httpMethod = "" then [] else [("method", Json.str d.httpMethod)]) ++
      (if d.encoding = "" then [] else [("encoding", Json.str d.encoding)]))

/-- JSON decoding of `LogsDestination` per its struct tags. -/
def LogsDestination.fromJson : Json → Except GoErr LogsDestination
  | Json.obj fields => do
      let p ← Json.getStr fields "protocol"
      let u ← Json.getStr fields "URI"
      let m ← Json.getStr fields "method"
      let e ← Json.getStr fields "encoding"
      .ok ⟨p, u, m, e⟩
  | _ => .error (.base "cannot unmarshal into LogsDestination")

/-- `extapi.LogsSubscribeRequest`: the request body sent to the Logs API on
subscribe. -/
structure LogsSubscribeRequest where
  schemaVersion : String
  logTypes : List String
  bufferingCfg : Option LogsBufferingCfg
  destination : Option LogsDestination
deriving DecidableEq, Repr

/-- JSON encoding of `LogsSubscribeRequest` per its struct tags:
`schemaVersion,omitempty`, `types`, `buffering,omitempty`, `destination`. -/
def LogsSubscribeRequest.toJson (r : LogsSubscribeRequest) : Json :=
  Json.obj
    ((if r.schemaVersion = "" then [] else [("schemaVersion", Json.str r.schemaVersion)]) ++
      [("types", Json.arr (r.logTypes.map Json.str))] ++
      (match r.bufferingCfg with
       | none => []
       | some b => [("buffering", LogsBufferingCfg.toJson b)]) ++
      [("destination", match r.destination with
        | none => Json.null
        | some d => LogsDestination.toJson d)])

/-- JSON decoding of `LogsSubscribeRequest` per its struct tags. -/
def LogsSubscribeRequest.fromJson : Json → Except GoErr LogsSubscribeRequest
  | Json.obj fields => do
      let sv ← Json.getStr fields "schemaVersion"
      let tys ← Json.getStrList fields "types"
      let buf ← (match Json.lookup fields "buffering" with
                 | none => .ok none
                 | some Json.null => .ok none
                 | some j => (LogsBufferingCfg.fromJson j).map some)
      let dst ← (match Json.lookup fields "destination" with
                 | none => .ok none
                 | some Json.null => .ok none
                 | some j => (LogsDestination.fromJson j).map some)
      .ok ⟨sv, tys, buf, dst⟩
  | _ => .error (.base "cannot unmarshal into LogsSubscribeRequest")

/-- A Go `context.Context`, modelled by its deadline in epoch milliseconds
(`none` = no deadline). `context.WithCancel` leaves the deadline unchanged
and is therefore invisible in this model. -/
abbrev Ctx := Option Int

/-- `context.WithDeadline(parent, time.UnixMilli(d))`: the child context's
deadline is `d`, unless the parent's deadline is already earlier, in which
case the parent's is kept. -/
def withDeadline (parent : Ctx) (d : Int) : Ctx :=
  match parent with
  | none => some d
  | some p => some (min p d)

/-- One observable callback or platform-API call made by `extapi.Run` and
its helpers, with the arguments it was given. -/
inductive RunCall where
  | initErrorReport (errorType : String) (err : GoErr) : RunCall
  | handleInvoke (ctx : Ctx) (event : NextEventResponse) : RunCall
  | extShutdown (ctx : Ctx) (reason : ShutdownReason) (err : Option GoErr) : RunCall
  | exitErrorReport (errorType : String) (err : GoErr) : RunCall
deriving DecidableEq, Repr

/-- One outcome of the `select` race in `extapi.loop`: the background
`Client.NextEvent` call finishing first (with a decoded event or an error),
the extension's error channel firing first, or the context being done. -/
inductive LoopSource where
  | nextEvent (res : Except GoErr NextEventResponse) : LoopSource
  | extErrSignal (e : GoErr) : LoopSource
  | ctxDone (e : GoErr) : LoopSource
deriving Repr

/-- Result of `extapi.loop`: the shutdown event that ended it, the error
that ended it, or `blocked` when the modelled schedule of select outcomes
runs out (the real loop would keep waiting on its select). -/
inductive LoopOutcome where
  | blocked : LoopOutcome
  | shutdownEvent (event : NextEventResponse) : LoopOutcome
  | failed (e : GoErr) : LoopOutcome
deriving DecidableEq, Repr

/-- The environment `extapi.Run` executes against: the outcomes of the
collaborator calls it makes. `initErrorResult` and `exitErrorResult` are the
results of the best-effort error reports, which `Run` only logs and
otherwise ignores. `loopSources` schedules the select outcomes of the
polling loop, in order. -/
structure RunEnv where
  registerResult : Except GoErr Unit
  initResult : Option GoErr
  initErrorResult : Option GoErr
  exitErrorResult : Option GoErr
  handleResult : NextEventResponse → Option GoErr
  extShutdownResult : Option GoErr
  loopSources : List LoopSource
  rootCtx : Ctx

/-- `extapi.loop`: each iteration races the background `Client.NextEvent`
call, the extension's error channel, and context cancellation. A decoded
Shutdown event exits cleanly with the event; an Invoke event is handed to
`Extension.HandleInvokeEvent` under a context bounded by the event's
deadline, continuing the loop on success; every other outcome fails the
loop with a wrapped error. Returns the calls made, in order, and the loop
outcome. -/
def loop (env : RunEnv) : List LoopSource → List RunCall × LoopOutcome
  | [] => ([], .blocked)
  | .nextEvent (.error e) :: _ =>
      ([], .failed (.wrap "Client.NextEvent failed" e))
  | .nextEvent (.ok event) :: rest =>
      if event.eventType = Shutdown then
        ([], .shutdownEvent event)
      else
        let handleCtx := withDeadline env.rootCtx event.deadlineMs
        match env.handleResult event with
        | some e =>
            ([RunCall.handleInvoke handleCtx event],
              .failed (.wrap "Extension.HandleInvokeEvent failed" e))
        | none =>
            let (calls, out) := loop env rest
            (RunCall.handleInvoke handleCtx event :: calls, out)
  | .extErrSignal e :: _ =>
      ([], .failed (.wrap "Extension.Err() signaled an error" e))
  | .ctxDone e :: _ =>
      ([], .failed (.wrap "context cancelled before calling Client.NextEvent" e))

/-- `extapi.shutdown`: derive the reason (`ExtensionError` when no shutdown
event was received) and, for a received shutdown event, bound the context by
the event's deadline; call `Extension.Shutdown`; then report the first
present error to `Client.ExitError` best-effort. Returns the calls made and
the (wrapped) `Extension.Shutdown` error. -/
def shutdown (env : RunEnv) (event : Option NextEventResponse) (err : Option GoErr) :
    List RunCall × Option GoErr :=
  let reason := match event with
    | some ev => ev.shutdownReason
    | none => ExtensionError
  let ctx := match event with
    | some ev => withDeadline env.rootCtx ev.deadlineMs
    | none => env.rootCtx
  let shutdownErr := env.extShutdownResult.map (GoErr.wrap "Extension.Shutdown failed")
  let errAfter := match err with
    | some e => some e
    | none => shutdownErr
  let calls := RunCall.extShutdown ctx reason err ::
    (match errAfter with
     | some e => [RunCall.exitErrorReport "Extension.Exit" e]
     | none => [])
  (calls, shutdownErr)

/-- Result of `extapi.Run`: the calls it made and the error it returned, or
`blocked` when the modelled loop schedule ran out. -/
inductive RunOutcome where
  | blocked (calls : List RunCall) : RunOutcome
  | finished (calls : List RunCall) (result : Option GoErr) : RunOutcome
deriving DecidableEq, Repr

/-- `extapi.Run`: register; call `Extension.Init`, and on failure report an
init error, call `Extension.Shutdown` with reason `ExtensionError` and the
init error, and return the wrapped init error; otherwise run the polling
loop, then the shutdown phase, and return the loop error if any, otherwise
the shutdown error. -/
def Run (env : RunEnv) : RunOutcome :=
  match env.registerResult with
  | .error e => .finished [] (some e)
  | .ok _ =>
      match env.initResult with
      | some initErr =>
          .finished
            [RunCall.initErrorReport "Extension.Init" initErr,
              RunCall.extShutdown env.rootCtx ExtensionError (some initErr)]
            (some (.wrap "Extension.Init failed" initErr))
      | none =>
          match loop env env.loopSources with
          | (calls, .blocked) => .blocked calls
          | (calls, .shutdownEvent event) =>
              let (sdCalls, sdErr) := shutdown env (some event) none
              .finished (calls ++ sdCalls) sdErr
          | (calls, .failed e) =>
              let loopErr := some (GoErr.wrap "extension loop failed" e)
              let (sdCalls, _) := shutdown env none loopErr
              .finished (calls ++ sdCalls) loopErr

end ExtApi

namespace Internal

/-- Error plumbing of `Extension.Shutdown` (internal/server.go): `srvErr` is
the result of `srv.Shutdown` and `epErr` the result of
`EventProcessor.Shutdown`; each is wrapped when non-nil, and the processor
error is returned when present, otherwise the server error. -/
def shutdownErrorResult (srvErr epErr : Option GoErr) : Option GoErr :=
  let srvErr := srvErr.map (GoErr.wrap "could not gravefully shut down events receiving HTTP server")
  match epErr.map (GoErr.wrap "EventProcessor.Shutdown failed") with
  | some lpErr => some lpErr
  | none => srvErr

/-- The error of a cancelled Go context (`context.Canceled`), the value
`ctx.Err()` returns once the decode-cancellation has fired. -/
def ctxCanceled : GoErr := .base "context canceled"

/-- The error with which `internal.Decode` aborts when it observes context
cancellation between decoding an element and sending it
(`fmt.Errorf("decoding was interrupted with context error: %w", ctx.Err())`). -/
def interruptedErr : GoErr :=
  .wrap "decoding was interrupted with context error" ctxCanceled

/-- Abstract view of the JSON array stream consumed by `internal.Decode`:
the result of reading the opening bracket token, the outcomes of the
successive `decodeNext` calls on the element stream (a decode failure covers
malformed element JSON, an unknown type tag, and a malformed tag-specific
payload, which `decodeNext` folds into one error return), and the result of
reading the closing bracket token. -/
structure ArrayStream (T : Type) where
  openErr : Option GoErr
  elems : List (Except GoErr T)
  closeErr : Option GoErr

/-- The element loop of `internal.Decode` (`for d.More() { ... }`): decode
the next element with `decodeNext`, returning its error if it failed;
otherwise check the cancellation signal, aborting with `interruptedErr`
without sending the just-decoded element if it already fired; otherwise send
the element on the output channel. `cancelled i` tells whether the context
was observed cancelled at the check of iteration `i`; the recursive call
shifts the iteration index by one. Returns the list of elements sent on the
channel, in order, together with the error result of the loop. -/
def decodeLoop {T : Type} (cancelled : Nat → Bool) :
    List (Except GoErr T) → List T × Option GoErr
  | [] => ([], none)
  | .error e :: _ => ([], some e)
  | .ok msg :: rest =>
      if cancelled 0 then
        ([], some interruptedErr)
      else
        let (sent, res) := decodeLoop (fun j => cancelled (j + 1)) rest
        (msg :: sent, res)

/-- `internal.Decode`: validate the opening `[` token, run the element loop,
then validate the closing `]` token. (The drain-and-close of the input
stream on exit has no observable effect on the sent events or the result.) -/
def Decode {T : Type} (cancelled : Nat → Bool) (s : ArrayStream T) :
    List T × Option GoErr :=
  match s.openErr with
  | some e => ([], some e)
  | none =>
      match decodeLoop cancelled s.elems with
      | (sent, some e) => (sent, some e)
      | (sent, none) => (sent, s.closeErr)

/-- The processing worker `Extension.startEventProcessing`, viewed over the
sequence of events that the channel delivers: for each event received, call
`EventProcessor.Process` (`procResult` gives the outcome per event); when a
call fails, the loop body breaks, so the worker stops reading the channel.
Returns the pair (events passed to `Process`, events received from the
channel), each in order. -/
def startEventProcessing {T : Type} (procResult : T → Option GoErr) :
    List T → List T × List T
  | [] => ([], [])
  | e :: rest =>
      match procResult e with
      | some _ => ([e], [e])
      | none =>
          let (processed, received) := startEventProcessing procResult rest
          (e :: processed, e :: received)

/-- Instantaneous state of the push-stream receiver (`internal.Extension`)
and its collaborators. The event channel is unbuffered: `sendPending` holds
the value a request handler is currently blocked offering on `eventsCh`
(concurrent blocked senders serialize, so one offer at a time is modelled);
a send completes exactly when the worker takes the offer, which appends the
event to `received`. `workerHolding` is the event the worker has taken off
the channel and is passing to `EventProcessor.Process`; a finished `Process`
call appends it to `processed`. `srvStopped` means the HTTP server is fully
stopped: every in-flight handler has finished, so no further sends can
start; `srv.Shutdown` can also return with the context's error before this
holds. `sendLost` collects events whose send hit the already-closed channel:
the send panics, net/http recovers the handler panic, and the event is lost.
`shutdownStep` is the program counter of `Extension.Shutdown`: 0 = not yet
called, 1 = after `decodeCancel()`, 2 = after `srv.Shutdown` returned, 3 =
after `close(eventsCh)`, 4 = after `<-doneCh`, 5 = returned (after the
`EventProcessor.Shutdown` call). -/
structure RecvState (T : Type) where
  decodeCancelled : Bool
  srvStopped : Bool
  chClosed : Bool
  sendPending : Option T
  workerHolding : Option T
  received : List T
  processed : List T
  sendLost : List T
  workerBroken : Bool
  doneClosed : Bool
  epShutdownCalled : Bool
  shutdownStep : Nat
deriving DecidableEq, Repr

/-- The receiver's state right after `NewExtension`: nothing cancelled,
stopped or closed, channel idle, no event anywhere. -/
def initState {T : Type} : RecvState T where
  decodeCancelled := false
  srvStopped := false
  chClosed := false
  sendPending := none
  workerHolding := none
  received := []
  processed := []
  sendLost := []
  workerBroken := false
  doneClosed := false
  epShutdownCalled := false
  shutdownStep := 0

/-- Small-step transitions of the receiver, from internal/server.go.
`procFail e` tells whether `EventProcessor.Process` fails on event `e`.
Handler sends can only start while in-flight handlers may still exist
(`srvStopped = false`); an attempted send after `close(eventsCh)` panics and
net/http recovers the panic per connection, losing the event
(`handlerSendPanicked`). `srv.Shutdown(ctx)` has two return paths: graceful
completion (`shutdownStopServer`), which requires every in-flight handler —
hence every pending channel send — to have finished, and the context-expiry
path (`shutdownStopServerExpired`), in which it returns `ctx.Err()` while
handlers still run and can still send; the expiry is external (the shutdown
context is deadline-bounded by the caller) and therefore nondeterministic
here. Closing the channel while a sender is blocked offering a value makes
that sender panic, losing its event. The worker receives an offered event,
passes it to `Process`, and on a failure breaks out of its receive loop; it
closes `doneCh` when it leaves the loop, either after a break or on
observing the closed, empty channel. The `Shutdown` steps follow the
statement order of `Extension.Shutdown`. -/
inductive Step {T : Type} (procFail : T → Bool) : RecvState T → RecvState T → Prop where
  | handlerSend (s : RecvState T) (e : T)
      (hsrv : s.srvStopped = false) (hcl : s.chClosed = false)
      (hpend : s.sendPending = none) :
      Step procFail s { s with sendPending := some e }
  | handlerSendPanicked (s : RecvState T) (e : T)
      (hsrv : s.srvStopped = false) (hcl : s.chClosed = true) :
      Step procFail s { s with sendLost := s.sendLost ++ [e] }
  | workerRecv (s : RecvState T) (e : T)
      (hpend : s.sendPending = some e) (hbroken : s.workerBroken = false)
      (hdone : s.doneClosed = false) (hhold : s.workerHolding = none) :
      Step procFail s
        { s with sendPending := none, workerHolding := some e,
                 received := s.received ++ [e] }
  | workerProcessOk (s : RecvState T) (e : T)
      (hhold : s.workerHolding = some e) (hok : procFail e = false) :
      Step procFail s
        { s with workerHolding := none, processed := s.processed ++ [e] }
  | workerProcessFail (s : RecvState T) (e : T)
      (hhold : s.workerHolding = some e) (hfail : procFail e = true) :
      Step procFail s
        { s with workerHolding := none, processed := s.processed ++ [e],
                 workerBroken := true }
  | workerExit (s : RecvState T)
      (hdone : s.doneClosed = false) (hhold : s.workerHolding = none)
      (hstop : s.workerBroken = true ∨ (s.chClosed = true ∧ s.sendPending = none)) :
      Step procFail s { s with doneClosed := true }
  | shutdownCancelDecode (s : RecvState T) (hpc : s.shutdownStep = 0) :
      Step procFail s { s with decodeCancelled := true, shutdownStep := 1 }
  | shutdownStopServer (s : RecvState T) (hpc : s.shutdownStep = 1)
      (hpend : s.sendPending = none) :
      Step procFail s { s with srvStopped := true, shutdownStep := 2 }
  | shutdownStopServerExpired (s : RecvState T) (hpc : s.shutdownStep = 1) :
      Step procFail s { s with shutdownStep := 2 }
  | shutdownCloseChannel (s : RecvState T) (hpc : s.shutdownStep = 2) :
      Step procFail s
        { s with chClosed := true, sendPending := none,
                 sendLost := s.sendLost ++ s.sendPending.toList, shutdownStep := 3 }
  | shutdownAwaitDone (s : RecvState T) (hpc : s.shutdownStep = 3)
      (hdone : s.doneClosed = true) :
      Step procFail s { s with shutdownStep := 4 }
  | shutdownCallProcessor (s : RecvState T) (hpc : s.shutdownStep = 4) :
      Step procFail s { s with epShutdownCalled := true, shutdownStep := 5 }

/-- States of the receiver reachable from `initState` by `Step`. -/
inductive Reachable {T : Type} (procFail : T → Bool) : RecvState T → Prop where
  | init : Reachable procFail initState
  | step {s t : RecvState T} :
      Reachable procFail s → Step procFail s t → Reachable procFail t

/-- Inductive invariant of the receiver: the decode cancellation, channel
close and processor call track the `Shutdown` program counter exactly; a
fully stopped server implies `Shutdown` passed its server-stop statement and
no send is pending (the converse fails on the context-expiry path of
`srv.Shutdown`); the closed channel holds no pending offer; the worker is
idle once `doneCh` is closed; and every event whose send completed has been
passed to `Process` except possibly the one the worker is holding. -/
def RecvInv {T : Type} (s : RecvState T) : Prop :=
  (s.decodeCancelled = true ↔ 1 ≤ s.shutdownStep) ∧
  (s.srvStopped = true → 2 ≤ s.shutdownStep) ∧
  (s.chClosed = true ↔ 3 ≤ s.shutdownStep) ∧
  (s.epShutdownCalled = true ↔ 5 ≤ s.shutdownStep) ∧
  (4 ≤ s.shutdownStep → s.doneClosed = true) ∧
  (s.srvStopped = true → s.sendPending = none) ∧
  (s.chClosed = true → s.sendPending = none) ∧
  (s.doneClosed = true → s.workerHolding = none) ∧
  s.received = s.processed ++ s.workerHolding.toList ∧
  s.shutdownStep ≤ 5

/-- Final state of one concrete receiver execution: one event (7) is pushed,
received and processed, then `Shutdown` runs to completion along the
graceful server-stop path, the worker exiting after the channel close. Used
to exhibit a reachable state with `shutdownStep = 5`. -/
def shutdownTraceEnd : RecvState Nat where
  decodeCancelled := true
  srvStopped := true
  chClosed := true
  sendPending := none
  workerHolding := none
  received := [7]
  processed := [7]
  sendLost := []
  workerBroken := false
  doneClosed := true
  epShutdownCalled := true
  shutdownStep := 5

/-- Final state of the divergent receiver execution: events 1 and 2 are
pushed; `Process` fails on event 1, so the worker breaks and stops reading;
the handler delivering event 2 stays blocked in its channel send; the
shutdown context expires, `srv.Shutdown` returns the context's error while
that handler still runs, and `close(eventsCh)` makes the blocked send panic,
losing event 2. -/
def shutdownTimeoutTraceEnd : RecvState Nat where
  decodeCancelled := true
  srvStopped := false
  chClosed := true
  sendPending := none
  workerHolding := none
  received := [1]
  processed := [1]
  sendLost := [2]
  workerBroken := true
  doneClosed := false
  epShutdownCalled := false
  shutdownStep := 3

theorem recvInv_init {T : Type} : RecvInv (initState (T := T)) := by
  simp [RecvInv, initState]

theorem recvInv_step {T : Type} {procFail : T → Bool} {s t : RecvState T}
    (hs : Step procFail s t) (ih : RecvInv s) : RecvInv t := by
  obtain ⟨h1, h2, h3, h4, h5, h6, h7, h8, h9⟩ := ih
  cases hs <;> simp_all [RecvInv, Option.toList]

theorem recvInv_reachable {T : Type} {procFail : T → Bool} {s : RecvState T}
    (h : Reachable procFail s) : RecvInv s := by
  induction h with
  | init => exact recvInv_init
  | step _ hs ih => exact recvInv_step hs ih

/-- Ordering facts of the receiver's `Shutdown` that hold on every
execution, including the context-expiry path of `srv.Shutdown`: the decode
cancellation happens first (step 1); a fully stopped server implies no send
is pending and no later transition can complete a send or leave one pending;
the channel close happens exactly at the unique transition from step 2 to
step 3; the processor's `Shutdown` is invoked only at step 5, hence only
after `doneCh` was observed closed at step 4; and whenever `Shutdown` has
returned (`shutdownStep = 5`) every event whose channel send completed has
been passed to `Process` (`processed = received`). -/
theorem recv_shutdown_ordering {T : Type} (procFail : T → Bool) (s : RecvState T)
    (h : Reachable procFail s) :
    (s.decodeCancelled = true ↔ 1 ≤ s.shutdownStep) ∧
    (s.srvStopped = true → 2 ≤ s.shutdownStep ∧ s.sendPending = none) ∧
    (s.chClosed = true ↔ 3 ≤ s.shutdownStep) ∧
    (s.srvStopped = true → ∀ t : RecvState T, Step procFail s t →
      t.received = s.received ∧ t.sendPending = none) ∧
    (∀ t : RecvState T, Step procFail s t → t.chClosed = true →
      s.chClosed = true ∨ (s.shutdownStep = 2 ∧ t.shutdownStep = 3)) ∧
    (s.epShutdownCalled = true ↔ 5 ≤ s.shutdownStep) ∧
    (s.shutdownStep = 5 →
      s.decodeCancelled = true ∧ s.chClosed = true ∧ s.doneClosed = true ∧
      s.epShutdownCalled = true ∧ s.processed = s.received) := by
  obtain ⟨h1, h2, h3, h4, h5, h6, h7, h8, h9, h10⟩ := recvInv_reachable h
  refine ⟨h1, fun hsrv => ⟨h2 hsrv, h6 hsrv⟩, h3, ?_, ?_, h4, ?_⟩
  · intro hsrv t hstep
    have hpend := h6 hsrv
    cases hstep <;> simp_all
  · intro t hstep hclosed
    cases hstep <;> simp_all
  · intro hpc
    have hdone : s.doneClosed = true := h5 (by omega)
    have hhold := h8 hdone
    refine ⟨h1.mpr (by omega), h3.mpr (by omega), hdone, h4.mpr (by omega), ?_⟩
    rw [h9, hhold]
    simp

/-- Witness for the ordering facts: the state at the end of a complete
graceful execution is reachable and satisfies all the conclusions. -/
theorem recv_shutdown_ordering_witness :
    Reachable (fun _ : Nat => false) shutdownTraceEnd ∧
    ((shutdownTraceEnd.decodeCancelled = true ↔ 1 ≤ shutdownTraceEnd.shutdownStep) ∧
      (shutdownTraceEnd.srvStopped = true → 2 ≤ shutdownTraceEnd.shutdownStep ∧
        shutdownTraceEnd.sendPending = none) ∧
      (shutdownTraceEnd.chClosed = true ↔ 3 ≤ shutdownTraceEnd.shutdownStep) ∧
      (shutdownTraceEnd.srvStopped = true → ∀ t : RecvState Nat,
        Step (fun _ : Nat => false) shutdownTraceEnd t →
        t.received = shutdownTraceEnd.received ∧ t.sendPending = none) ∧
      (∀ t : RecvState Nat, Step (fun _ : Nat => false) shutdownTraceEnd t →
        t.chClosed = true → shutdownTraceEnd.chClosed = true ∨
          (shutdownTraceEnd.shutdownStep = 2 ∧ t.shutdownStep = 3)) ∧
      (shutdownTraceEnd.epShutdownCalled = true ↔ 5 ≤ shutdownTraceEnd.shutdownStep) ∧
      (shutdownTraceEnd.shutdownStep = 5 →
        shutdownTraceEnd.decodeCancelled = true ∧ shutdownTraceEnd.chClosed = true ∧
        shutdownTraceEnd.doneClosed = true ∧
        shutdownTraceEnd.epShutdownCalled = true ∧
        shutdownTraceEnd.processed = shutdownTraceEnd.received)) :=
  have hreach : Reachable (fun _ : Nat => false) shutdownTraceEnd := by
    have t0 : Reachable (fun _ : Nat => false) initState := Reachable.init
    have t1 := Reachable.step t0 (Step.handlerSend _ 7 rfl rfl rfl)
    have t2 := Reachable.step t1 (Step.workerRecv _ 7 rfl rfl rfl rfl)
    have t3 := Reachable.step t2 (Step.workerProcessOk _ 7 rfl rfl)
    have t4 := Reachable.step t3 (Step.shutdownCancelDecode _ rfl)
    have t5 := Reachable.step t4 (Step.shutdownStopServer _ rfl rfl)
    have t6 := Reachable.step t5 (Step.shutdownCloseChannel _ rfl)
    have t7 := Reachable.step t6 (Step.workerExit _ rfl rfl (Or.inr ⟨rfl, rfl⟩))
    have t8 := Reachable.step t7 (Step.shutdownAwaitDone _ rfl rfl)
    have t9 := Reachable.step t8 (Step.shutdownCallProcessor _ rfl)
    exact t9
  ⟨hreach, recv_shutdown_ordering (fun _ : Nat => false) shutdownTraceEnd hreach⟩

/-- C1: the code diverges from the claimed ordering. The claim says the
event channel is closed only after the HTTP server is fully stopped, so that
no further sends into the channel are possible. On the context-expiry path
of `srv.Shutdown` this fails: with `Process` failing on event 1 the worker
breaks and stops reading, the handler delivering event 2 stays blocked in
its channel send, `srv.Shutdown` returns the context's error while that
handler still runs, and `close(eventsCh)` follows — the exhibited reachable
state has the channel closed (`chClosed`), the server not fully stopped
(`srvStopped = false`), and event 2's still-possible send crashing against
the closed channel (`sendLost = [2]`), never reaching `Process`. -/
theorem recv_shutdown_timeout_violation :
    Reachable (fun n : Nat => n == 1) shutdownTimeoutTraceEnd ∧
    shutdownTimeoutTraceEnd.chClosed = true ∧
    shutdownTimeoutTraceEnd.srvStopped = false ∧
    shutdownTimeoutTraceEnd.sendLost = [2] ∧
    shutdownTimeoutTraceEnd.processed = [1] :=
  have hreach : Reachable (fun n : Nat => n == 1) shutdownTimeoutTraceEnd := by
    have t0 : Reachable (fun n : Nat => n == 1) initState := Reachable.init
    have t1 := Reachable.step t0 (Step.handlerSend _ 1 rfl rfl rfl)
    have t2 := Reachable.step t1 (Step.workerRecv _ 1 rfl rfl rfl rfl)
    have t3 := Reachable.step t2 (Step.workerProcessFail _ 1 rfl rfl)
    have t4 := Reachable.step t3 (Step.handlerSend _ 2 rfl rfl rfl)
    have t5 := Reachable.step t4 (Step.shutdownCancelDecode _ rfl)
    have t6 := Reachable.step t5 (Step.shutdownStopServerExpired _ rfl)
    have t7 := Reachable.step t6 (Step.shutdownCloseChannel _ rfl)
    exact t7
  ⟨hreach, rfl, rfl, rfl, rfl⟩

/-- C3: the error returned by the receiver's `Shutdown` is the processor's
(wrapped) error whenever `EventProcessor.Shutdown` failed, regardless of the
server-stop result; otherwise it is the (wrapped) server-stop error; and it
is nil when both are nil. -/
theorem shutdown_error_priority :
    (∀ (srvErr : Option GoErr) (e : GoErr),
      shutdownErrorResult srvErr (some e) =
        some (.wrap "EventProcessor.Shutdown failed" e)) ∧
    (∀ srvErr : Option GoErr, shutdownErrorResult srvErr none =
        srvErr.map
          (GoErr.wrap "could not gravefully shut down events receiving HTTP server")) ∧
    shutdownErrorResult none none = none := by
  refine ⟨fun srvErr e => rfl, fun srvErr => ?_, rfl⟩
  cases srvErr <;> rfl

theorem decodeLoop_no_cancel_append {T : Type} (good : List T)
    (tail : List (Except GoErr T)) :
    decodeLoop (fun _ => false) (good.map Except.ok ++ tail) =
      ((good ++ (decodeLoop (fun _ => false) tail).1),
        (decodeLoop (fun _ => false) tail).2) := by
  induction good with
  | nil => simp
  | cons a gs ih => simp [decodeLoop, ih]

theorem decodeLoop_cancel_at {T : Type} (good : List T) (c : Nat → Bool)
    (hlt : ∀ j < good.length, c j = false) (hat : c good.length = true)
    (x : T) (rest : List (Except GoErr T)) :
    decodeLoop c (good.map Except.ok ++ Except.ok x :: rest) =
      (good, some interruptedErr) := by
  induction good generalizing c with
  | nil =>
      simp only [List.map_nil, List.nil_append, decodeLoop]
      simp at hat
      simp [hat]
  | cons a gs ih =>
      have h0 : c 0 = false := hlt 0 (by simp)
      simp only [List.map_cons, List.cons_append, decodeLoop, h0, List.append_eq]
      rw [ih (fun j => c (j + 1)) (fun j hj => hlt (j + 1) (by simpa using hj))
        (by simpa using hat)]
      simp

/-- C4: when the elements before position `good.length` of a pushed batch
decode successfully and the element at that position fails to decode
(covering malformed JSON, an unknown type tag and a malformed tag-specific
payload, which `decodeNext` reports uniformly as an error), `Decode` returns
that error, exactly the elements strictly before the failing one have been
sent on the output channel, and no element at or after the failing position
is sent. -/
theorem decode_aborts_at_failing_element {T : Type} (good : List T) (e : GoErr)
    (rest : List (Except GoErr T)) (closeErr : Option GoErr) :
    Decode (fun _ => false)
        ⟨none, good.map Except.ok ++ Except.error e :: rest, closeErr⟩ =
      (good, some e) := by
  unfold Decode
  simp only
  rw [decodeLoop_no_cancel_append]
  simp [decodeLoop]

/-- C5: if the cancellation signal has not fired during the first
`good.length` iterations but has fired by the check that follows the
successful decode of the next element, `Decode` aborts with the
"interrupted" error and does not send that element: exactly the elements
decoded before it were sent. The cancellation check sits between decoding an
element and sending it. -/
theorem decode_aborts_when_cancelled {T : Type} (good : List T) (c : Nat → Bool)
    (hlt : ∀ j < good.length, c j = false) (hat : c good.length = true)
    (x : T) (rest : List (Except GoErr T)) (closeErr : Option GoErr) :
    Decode c ⟨none, good.map Except.ok ++ Except.ok x :: rest, closeErr⟩ =
      (good, some interruptedErr) := by
  unfold Decode
  simp only
  rw [decodeLoop_cancel_at good c hlt hat x rest]

/-- Witness for C5: a three-element batch with cancellation firing at the
third check loses exactly the third element and reports the interrupted
error. -/
theorem decode_aborts_when_cancelled_witness :
    (∀ j < 2, (fun i => decide (2 ≤ i)) j = false) ∧
    (fun i => decide (2 ≤ i)) 2 = true ∧
    Decode (fun i => decide (2 ≤ i))
        ⟨none, [10, 20].map (Except.ok (ε := GoErr)) ++ Except.ok 30 :: [], none⟩ =
      ([10, 20], some interruptedErr) := by
  refine ⟨by decide, by decide, ?_⟩
  exact decode_aborts_when_cancelled [10, 20] _ (by decide) (by decide) 30 [] none

/-- Counterexample to C2: with a two-event buffer whose first event fails
`Process`, the worker receives only the first event — the second buffered
event is never drained from the channel, so a pending send for it would stay
blocked. -/
theorem worker_drain_counterexample :
    (startEventProcessing
        (fun n : Nat => if n = 1 then some (.base "process failed") else none)
        [1, 2]).2 = [1] ∧
    ([1] : List Nat) ≠ [1, 2] := by
  constructor
  · rfl
  · decide

/-- C2 as amended: when `Process` fails on an event, the worker stops
invoking `Process` — no event after the failing one is processed — and it
also stops reading the channel entirely: the events received from the
channel are exactly those processed (the prefix through the failing event),
and the remaining buffered events are not drained. -/
theorem worker_stops_reading_at_first_failure {T : Type}
    (procResult : T → Option GoErr) (pre : List T) (e : T) (post : List T)
    (hpre : ∀ a ∈ pre, procResult a = none) (he : procResult e ≠ none) :
    startEventProcessing procResult (pre ++ e :: post) = (pre ++ [e], pre ++ [e]) := by
  induction pre with
  | nil =>
      simp only [List.nil_append, startEventProcessing]
      cases hr : procResult e with
      | none => exact absurd hr he
      | some err => simp
  | cons a rest ih =>
      have ha : procResult a = none := hpre a (by simp)
      simp only [List.cons_append, startEventProcessing, ha, List.append_eq]
      rw [ih (fun b hb => hpre b (by simp [hb]))]

/-- Witness for the amended C2: buffer `[0, 1, 2]` with `Process` failing on
event 1 — the worker processes and receives exactly `[0, 1]`. -/
theorem worker_stops_reading_at_first_failure_witness :
    (∀ a ∈ [0], (fun n : Nat => if n = 1 then some (GoErr.base "b") else none) a = none) ∧
    (fun n : Nat => if n = 1 then some (GoErr.base "b") else none) 1 ≠ none ∧
    startEventProcessing
        (fun n : Nat => if n = 1 then some (GoErr.base "b") else none)
        ([0] ++ 1 :: [2]) = ([0] ++ [1], [0] ++ [1]) := by
  refine ⟨by decide, by decide, ?_⟩
  exact worker_stops_reading_at_first_failure _ [0] 1 [2] (by decide) (by decide)

end Internal

namespace ExtApi

theorem decodeStrElems_map_str (l : List String) :
    Json.decodeStrElems (l.map Json.str) = .ok l := by
  induction l with
  | nil => rfl
  | cons a rest ih => simp [Json.decodeStrElems, ih, Except.map]

/-- C6: when registration succeeds and `Extension.Init` fails with error
`e`, `Run` reports an init error to the platform exactly once, calls
`Extension.Shutdown` exactly once with reason `ExtensionError` and the error
`e`, never enters the polling loop (the two calls above are the only calls
made), and returns the wrapped init error — whatever the outcomes of the
init-error report and of the `Shutdown` call. -/
theorem run_init_error_path (env : RunEnv) (e : GoErr)
    (hreg : env.registerResult = .ok ()) (hinit : env.initResult = some e) :
    Run env = .finished
      [RunCall.initErrorReport "Extension.Init" e,
        RunCall.extShutdown env.rootCtx ExtensionError (some e)]
      (some (.wrap "Extension.Init failed" e)) := by
  unfold Run
  rw [hreg, hinit]

/-- Witness for C6: a concrete environment in which both the init-error
report and the `Shutdown` call fail still yields exactly the two calls and
the wrapped init error. -/
theorem run_init_error_path_witness :
    ({ registerResult := .ok (), initResult := some (GoErr.base "init boom"),
       initErrorResult := some (GoErr.base "report failed"),
       exitErrorResult := none, handleResult := fun _ => none,
       extShutdownResult := some (GoErr.base "shutdown failed"),
       loopSources := [], rootCtx := none } : RunEnv).registerResult = .ok () ∧
    Run { registerResult := .ok (), initResult := some (GoErr.base "init boom"),
          initErrorResult := some (GoErr.base "report failed"),
          exitErrorResult := none, handleResult := fun _ => none,
          extShutdownResult := some (GoErr.base "shutdown failed"),
          loopSources := [], rootCtx := none } =
      .finished
        [RunCall.initErrorReport "Extension.Init" (GoErr.base "init boom"),
          RunCall.extShutdown none ExtensionError (some (GoErr.base "init boom"))]
        (some (.wrap "Extension.Init failed" (GoErr.base "init boom"))) :=
  ⟨rfl, run_init_error_path _ (GoErr.base "init boom") rfl rfl⟩

theorem loop_invoke_prefix (env : RunEnv) (pre tail : List LoopSource)
    (hpre : ∀ s ∈ pre, ∃ ev, s = .nextEvent (.ok ev) ∧ ev.eventType = Invoke ∧
      env.handleResult ev = none) :
    ∃ calls, loop env (pre ++ tail) = (calls ++ (loop env tail).1, (loop env tail).2) ∧
      ∀ c ∈ calls, ∃ cx ev, c = RunCall.handleInvoke cx ev := by
  induction pre with
  | nil => exact ⟨[], by simp, by simp⟩
  | cons s rest ih =>
      obtain ⟨ev, hs, hinv, hh⟩ := hpre s (by simp)
      obtain ⟨calls, hloop, hcalls⟩ := ih (fun x hx => hpre x (by simp [hx]))
      subst hs
      have hne : ev.eventType ≠ Shutdown := by
        rw [hinv]
        decide
      refine ⟨RunCall.handleInvoke (withDeadline env.rootCtx ev.deadlineMs) ev :: calls,
        ?_, ?_⟩
      · simp only [List.cons_append, loop, if_neg hne, hh, List.append_eq, hloop]
      · intro c hc
        rcases List.mem_cons.mp hc with hc | hc
        · exact ⟨_, _, hc⟩
        · exact hcalls c hc

/-- C7: when registration and `Init` succeed, the preceding poll outcomes
are Invoke events all handled successfully, and the next poll outcome is a
Shutdown event with reason spindown, the loop exits with no error,
`Extension.Shutdown` is called with that reason, a nil error and a context
bounded by the event's deadline, no exit error is reported when the callback
succeeds (the call list contains nothing besides the invoke handlers and the
one `Shutdown` call), and `Run` returns nil. -/
theorem run_shutdown_spindown (env : RunEnv) (pre : List LoopSource)
    (ev : NextEventResponse)
    (hreg : env.registerResult = .ok ()) (hinit : env.initResult = none)
    (hsrc : env.loopSources = pre ++ [.nextEvent (.ok ev)])
    (hpre : ∀ s ∈ pre, ∃ e0, s = .nextEvent (.ok e0) ∧ e0.eventType = Invoke ∧
      env.handleResult e0 = none)
    (hev : ev.eventType = Shutdown) (hreason : ev.shutdownReason = Spindown)
    (hsd : env.extShutdownResult = none) :
    ∃ calls, Run env = .finished
      (calls ++
        [RunCall.extShutdown (withDeadline env.rootCtx ev.deadlineMs) Spindown none])
      none ∧
      ∀ c ∈ calls, ∃ cx e0, c = RunCall.handleInvoke cx e0 := by
  obtain ⟨calls, hloop, hcalls⟩ := loop_invoke_prefix env pre [.nextEvent (.ok ev)] hpre
  have htail : loop env [LoopSource.nextEvent (.ok ev)] = ([], .shutdownEvent ev) := by
    simp [loop, hev]
  rw [htail] at hloop
  refine ⟨calls, ?_, hcalls⟩
  unfold Run
  rw [hreg, hinit, hsrc, hloop]
  simp [shutdown, hsd, hreason]

/-- Witness for C7: one successfully handled Invoke event followed by a
spindown Shutdown event — `Run` finishes with no error, calling
`Extension.Shutdown` under the event's deadline. -/
theorem run_shutdown_spindown_witness :
    (({ registerResult := .ok (), initResult := none, initErrorResult := none,
        exitErrorResult := none, handleResult := fun _ => none,
        extShutdownResult := none,
        loopSources := [.nextEvent (.ok ⟨"INVOKE", 100, "req-1", "arn", ⟨"", ""⟩, ""⟩),
          .nextEvent (.ok ⟨"SHUTDOWN", 2000, "", "", ⟨"", ""⟩, "spindown"⟩)],
        rootCtx := none } : RunEnv).loopSources =
      [.nextEvent (.ok ⟨"INVOKE", 100, "req-1", "arn", ⟨"", ""⟩, ""⟩)] ++
        [.nextEvent (.ok ⟨"SHUTDOWN", 2000, "", "", ⟨"", ""⟩, "spindown"⟩)]) ∧
    ∃ calls,
      Run { registerResult := .ok (), initResult := none, initErrorResult := none,
            exitErrorResult := none, handleResult := fun _ => none,
            extShutdownResult := none,
            loopSources := [.nextEvent (.ok ⟨"INVOKE", 100, "req-1", "arn", ⟨"", ""⟩, ""⟩),
              .nextEvent (.ok ⟨"SHUTDOWN", 2000, "", "", ⟨"", ""⟩, "spindown"⟩)],
            rootCtx := none } =
        .finished (calls ++ [RunCall.extShutdown (some 2000) Spindown none]) none ∧
        ∀ c ∈ calls, ∃ cx e0, c = RunCall.handleInvoke cx e0 :=
  ⟨rfl,
    run_shutdown_spindown _
      [.nextEvent (.ok ⟨"INVOKE", 100, "req-1", "arn", ⟨"", ""⟩, ""⟩)]
      ⟨"SHUTDOWN", 2000, "", "", ⟨"", ""⟩, "spindown"⟩ rfl rfl rfl
      (by
        intro s hs
        simp only [List.mem_singleton] at hs
        exact ⟨⟨"INVOKE", 100, "req-1", "arn", ⟨"", ""⟩, ""⟩, hs, rfl, rfl⟩)
      rfl rfl rfl⟩

/-- C8: when the select race yields an Invoke event, the loop's first call
is `Extension.HandleInvokeEvent` with that same event (hence the same
request id) and a context whose deadline equals the event's absolute
deadline in epoch milliseconds (the parent context carrying no deadline of
its own). -/
theorem loop_invoke_deadline (env : RunEnv) (ev : NextEventResponse)
    (rest : List LoopSource) (hctx : env.rootCtx = none) (hev : ev.eventType = Invoke) :
    ∃ tl out, loop env (.nextEvent (.ok ev) :: rest) =
      (RunCall.handleInvoke (some ev.deadlineMs) ev :: tl, out) := by
  have hne : ev.eventType ≠ Shutdown := by
    rw [hev]
    decide
  have hdl : withDeadline env.rootCtx ev.deadlineMs = some ev.deadlineMs := by
    rw [hctx]
    rfl
  cases hh : env.handleResult ev with
  | some e =>
      exact ⟨[], .failed (.wrap "Extension.HandleInvokeEvent failed" e), by
        simp only [loop, if_neg hne, hh, hdl]⟩
  | none =>
      exact ⟨(loop env rest).1, (loop env rest).2, by
        simp only [loop, if_neg hne, hh, hdl]⟩

/-- Witness for C8: an Invoke event with `deadlineMs = 9223372036854775807`
and request id "3da1f2dc-..." reaches the handler with a context deadline of
exactly that value. -/
theorem loop_invoke_deadline_witness :
    ∃ tl out,
      loop { registerResult := .ok (), initResult := none, initErrorResult := none,
             exitErrorResult := none, handleResult := fun _ => none,
             extShutdownResult := none, loopSources := [], rootCtx := none }
        [.nextEvent
          (.ok ⟨"INVOKE", 9223372036854775807, "3da1f2dc-...", "arn", ⟨"", ""⟩, ""⟩)] =
      (RunCall.handleInvoke (some 9223372036854775807)
          ⟨"INVOKE", 9223372036854775807, "3da1f2dc-...", "arn", ⟨"", ""⟩, ""⟩ :: tl,
        out) :=
  loop_invoke_deadline _ _ [] rfl rfl

/-- C9: serializing a Subscription Request (telemetry or logs) to JSON and
deserializing the result yields a value field-for-field equal to the
original — same schema version, destination, event-type filter list and
buffering thresholds. -/
theorem subscribe_request_roundtrip :
    (∀ r : TelemetrySubscribeRequest,
      TelemetrySubscribeRequest.fromJson (TelemetrySubscribeRequest.toJson r) = .ok r) ∧
    (∀ r : LogsSubscribeRequest,
      LogsSubscribeRequest.fromJson (LogsSubscribeRequest.toJson r) = .ok r) := by
  constructor
  · intro r
    obtain ⟨sv, tys, buf, dst⟩ := r
    by_cases hsv : sv = "" <;>
    rcases buf with _ | b <;> rcases dst with _ | d <;>
      simp [TelemetrySubscribeRequest.toJson, TelemetrySubscribeRequest.fromJson,
        TelemetryBufferingCfg.toJson, TelemetryBufferingCfg.fromJson,
        TelemetryDestination.toJson, TelemetryDestination.fromJson,
        Json.lookup, Json.getStr, Json.getInt, Json.getStrList,
        decodeStrElems_map_str, hsv, Except.map, Except.bind, bind, pure, Except.pure]
  · intro r
    obtain ⟨sv, tys, buf, dst⟩ := r
    rcases dst with _ | ⟨p, u, m, enc⟩
    · by_cases hsv : sv = "" <;> rcases buf with _ | b <;>
        simp [LogsSubscribeRequest.toJson, LogsSubscribeRequest.fromJson,
          LogsBufferingCfg.toJson, LogsBufferingCfg.fromJson,
          Json.lookup, Json.getStr, Json.getInt, Json.getStrList,
          decodeStrElems_map_str, hsv, Except.map, Except.bind, bind, pure, Except.pure]
    · by_cases hsv : sv = "" <;> by_cases hm : m = "" <;> by_cases he2 : enc = "" <;>
        rcases buf with _ | b <;>
        simp [LogsSubscribeRequest.toJson, LogsSubscribeRequest.fromJson,
          LogsBufferingCfg.toJson, LogsBufferingCfg.fromJson,
          LogsDestination.toJson, LogsDestination.fromJson,
          Json.lookup, Json.getStr, Json.getInt, Json.getStrList,
          decodeStrElems_map_str, hsv, hm, he2, Except.map, Except.bind, bind, pure,
          Except.pure]

theorem nextEvent_decode_shutdownReason
    (fields : List (String × Json)) (r : NextEventResponse) (v : String)
    (hlook : Json.lookup fields "shutdownReason" = some (Json.str v))
    (hdec : NextEventResponse.fromJson (Json.obj fields) = .ok r) :
    r.shutdownReason = v := by
  have hsr : Json.getStr fields "shutdownReason" = .ok v := by
    unfold Json.getStr
    rw [hlook]
  simp only [NextEventResponse.fromJson] at hdec
  cases h1 : Json.getStr fields "eventType" <;> rw [h1] at hdec <;>
    simp only [Except.bind, bind] at hdec
  case error => cases hdec
  cases h2 : Json.getInt fields "deadlineMs" <;> rw [h2] at hdec <;>
    simp only [Except.bind, bind] at hdec
  case error => cases hdec
  cases h3 : Json.getStr fields "requestId" <;> rw [h3] at hdec <;>
    simp only [Except.bind, bind] at hdec
  case error => cases hdec
  cases h4 : Json.getStr fields "invokedFunctionArn" <;> rw [h4] at hdec <;>
    simp only [Except.bind, bind] at hdec
  case error => cases hdec
  cases h5 : (match Json.lookup fields "tracing" with
      | none => Except.ok { type := "", value := "" }
      | some j => Tracing.fromJson j : Except GoErr Tracing) <;>
    rw [h5] at hdec <;> simp only [Except.bind, bind] at hdec
  case error => cases hdec
  rw [hsr] at hdec
  simp only [Except.bind, bind] at hdec
  cases hdec
  rfl

/-- C10: the `Timeout` constant is spelled "timout", so a poll response
whose JSON `shutdownReason` field carries the platform's spelling "timeout"
decodes to a reason different from `Timeout`, while "spindown" and "failure"
decode equal to their constants. -/
theorem shutdown_reason_timeout_spelling :
    Timeout = "timout" ∧
    (∀ (fields : List (String × Json)) (r : NextEventResponse),
      Json.lookup fields "shutdownReason" = some (Json.str "timeout") →
      NextEventResponse.fromJson (Json.obj fields) = .ok r →
      r.shutdownReason ≠ Timeout) ∧
    (∀ (fields : List (String × Json)) (r : NextEventResponse),
      Json.lookup fields "shutdownReason" = some (Json.str "spindown") →
      NextEventResponse.fromJson (Json.obj fields) = .ok r →
      r.shutdownReason = Spindown) ∧
    (∀ (fields : List (String × Json)) (r : NextEventResponse),
      Json.lookup fields "shutdownReason" = some (Json.str "failure") →
      NextEventResponse.fromJson (Json.obj fields) = .ok r →
      r.shutdownReason = Failure) := by
  refine ⟨rfl, ?_, ?_, ?_⟩
  · intro fields r hlook hdec
    rw [nextEvent_decode_shutdownReason fields r _ hlook hdec]
    decide
  · intro fields r hlook hdec
    exact nextEvent_decode_shutdownReason fields r _ hlook hdec
  · intro fields r hlook hdec
    exact nextEvent_decode_shutdownReason fields r _ hlook hdec

/-- Witness for C10: a concrete poll response with shutdownReason "timeout"
decodes to a reason that is not the `Timeout` constant. -/
theorem shutdown_reason_timeout_spelling_witness :
    Json.lookup [("eventType", Json.str "SHUTDOWN"), ("deadlineMs", Json.num 1000),
        ("shutdownReason", Json.str "timeout")] "shutdownReason" =
      some (Json.str "timeout") ∧
    NextEventResponse.fromJson (Json.obj [("eventType", Json.str "SHUTDOWN"),
        ("deadlineMs", Json.num 1000), ("shutdownReason", Json.str "timeout")]) =
      .ok ⟨"SHUTDOWN", 1000, "", "", ⟨"", ""⟩, "timeout"⟩ ∧
    (⟨"SHUTDOWN", 1000, "", "", ⟨"", ""⟩, "timeout"⟩ :
        NextEventResponse).shutdownReason ≠ Timeout :=
  ⟨rfl, rfl,
    shutdown_reason_timeout_spelling.2.1
      [("eventType", Json.str "SHUTDOWN"), ("deadlineMs", Json.num 1000),
        ("shutdownReason", Json.str "timeout")]
      ⟨"SHUTDOWN", 1000, "", "", ⟨"", ""⟩, "timeout"⟩ rfl rfl⟩

end ExtApi

end LambdaExt
